import Mathlib

/-!
Verification of the PKI tidy subsystem (`builtin/logical/pki/path_tidy.go`).

Shallow embedding conventions:
* `time.Time` instants and `time.Duration` values are `Int` nanoseconds;
  `t.After u` is the strict comparison `t > u`, `t.Add d` is `t + d`,
  `time.Second` is `1000000000`.
* Go `error` values are `Option String` (`none` = nil error).
* Raw byte slices are `List Nat`.
* External collaborators that live outside this file's sources
  (x509 parsing, JSON decode, the storage backend, the issuer resolver,
  the CRL builder) are abstract parameters of the run environments, so a
  theorem quantifies over every possible behaviour of them.
-/

abbrev Bytes := List Nat

/-- `time.Second` in nanoseconds. -/
def timeSecond : Int := 1000000000

/-- Abstraction of an `x509.Certificate`: the tidy code only reads `NotAfter`. -/
structure X509Cert where
  notAfter : Int
deriving DecidableEq, Repr

/-- `tidyConfig` from path_tidy.go: the per-run request configuration.
`safetyBuffer` is a `time.Duration` (nanoseconds). -/
structure tidyConfig where
  certStore : Bool
  revokedCerts : Bool
  issuerAssocs : Bool
  safetyBuffer : Int
deriving DecidableEq, Repr

/-- The tidy status states used by path_tidy.go
(`tidyStatusInactive`, `tidyStatusStarted`, `tidyStatusFinished`, `tidyStatusError`). -/
inductive tidyState where
  | inactive
  | started
  | finished
  | error
deriving DecidableEq, Repr

/-- The `tidyStatus` record, with exactly the fields path_tidy.go reads and
writes: echoed config (safetyBuffer in seconds, as `int(config.SafetyBuffer /
time.Second)`), state, timestamps, progress message, the three counters and
the terminal error. -/
structure tidyStatus where
  safetyBuffer : Int
  tidyCertStore : Bool
  tidyRevokedCerts : Bool
  tidyRevokedAssocs : Bool
  state : tidyState
  err : Option String
  timeStarted : Option Int
  timeFinished : Option Int
  message : Option String
  certStoreDeletedCount : Nat
  revokedCertDeletedCount : Nat
  missingIssuerCertCount : Nat
deriving DecidableEq, Repr

/-- Modelled from the spec: the process-wide status before any run has been
admitted ("a restart implies `Inactive`"); the `tidyStatus` zero value with
state `tidyStatusInactive` (its construction lives outside the tidy file). -/
def initialTidyStatus : tidyStatus :=
  { safetyBuffer := 0
    tidyCertStore := false
    tidyRevokedCerts := false
    tidyRevokedAssocs := false
    state := .inactive
    err := none
    timeStarted := none
    timeFinished := none
    message := none
    certStoreDeletedCount := 0
    revokedCertDeletedCount := 0
    missingIssuerCertCount := 0 }

/-- `tidyStatusStart`: replaces the status with a fresh record — state
`Started`, echoed config, `timeStarted` stamped, everything else zero/nil. -/
def tidyStatusStart (config : tidyConfig) (now : Int) : tidyStatus :=
  { safetyBuffer := config.safetyBuffer / timeSecond
    tidyCertStore := config.certStore
    tidyRevokedCerts := config.revokedCerts
    tidyRevokedAssocs := config.issuerAssocs
    state := .started
    err := none
    timeStarted := some now
    timeFinished := none
    message := none
    certStoreDeletedCount := 0
    revokedCertDeletedCount := 0
    missingIssuerCertCount := 0 }

/-- `tidyStatusStop(err)`: stamps `timeFinished`, stores `err`, and moves the
state to `Finished` when `err` is nil and to `Error` otherwise. -/
def tidyStatusStop (st : tidyStatus) (e : Option String) (now : Int) : tidyStatus :=
  { st with
    timeFinished := some now
    err := e
    state := if e = none then .finished else .error }

/-- `tidyStatusMessage(msg)`: overwrites the progress message. -/
def tidyStatusMessage (st : tidyStatus) (msg : String) : tidyStatus :=
  { st with message := some msg }

/-- `tidyStatusIncCertStoreCount`. -/
def tidyStatusIncCertStoreCount (st : tidyStatus) : tidyStatus :=
  { st with certStoreDeletedCount := st.certStoreDeletedCount + 1 }

/-- `tidyStatusIncRevokedCertCount`. -/
def tidyStatusIncRevokedCertCount (st : tidyStatus) : tidyStatus :=
  { st with revokedCertDeletedCount := st.revokedCertDeletedCount + 1 }

/-- `tidyStatusIncMissingIssuerCertCount`. -/
def tidyStatusIncMissingIssuerCertCount (st : tidyStatus) : tidyStatus :=
  { st with missingIssuerCertCount := st.missingIssuerCertCount + 1 }

/-- The response assembled by `pathTidyStatusRead`, one `Option` field per key
of its `Data` map (`none` = JSON nil / absent). `state` is always present. -/
structure statusResponse where
  safety_buffer : Option Int
  tidy_cert_store : Option Bool
  tidy_revoked_certs : Option Bool
  tidy_revoked_cert_issuer_associations : Option Bool
  state : String
  error : Option String
  time_started : Option Int
  time_finished : Option Int
  message : Option String
  cert_store_deleted_count : Option Nat
  revoked_cert_deleted_count : Option Nat
  missing_issuer_cert_count : Option Nat
deriving DecidableEq, Repr

/-- `pathTidyStatusRead` (the snapshot logic after the replication guard):
starts from an all-nil response with state "Inactive"; returns it unchanged
while inactive; otherwise echoes config, progress and counters, then switches
on the state — `Running` leaves `time_finished`/`error` nil, `Finished` stamps
`time_finished` and clears the message, `Error` stamps `time_finished`,
reports the error string and keeps the message. -/
def pathTidyStatusRead (st : tidyStatus) : statusResponse :=
  let resp : statusResponse :=
    { safety_buffer := none
      tidy_cert_store := none
      tidy_revoked_certs := none
      tidy_revoked_cert_issuer_associations := none
      state := "Inactive"
      error := none
      time_started := none
      time_finished := none
      message := none
      cert_store_deleted_count := none
      revoked_cert_deleted_count := none
      missing_issuer_cert_count := none }
  if st.state = .inactive then
    resp
  else
    let resp :=
      { resp with
        safety_buffer := some st.safetyBuffer
        tidy_cert_store := some st.tidyCertStore
        tidy_revoked_certs := some st.tidyRevokedCerts
        tidy_revoked_cert_issuer_associations := some st.tidyRevokedAssocs
        time_started := st.timeStarted
        message := st.message
        cert_store_deleted_count := some st.certStoreDeletedCount
        revoked_cert_deleted_count := some st.revokedCertDeletedCount
        missing_issuer_cert_count := some st.missingIssuerCertCount }
    match st.state with
    | .started => { resp with state := "Running" }
    | .finished =>
        { resp with state := "Finished", time_finished := st.timeFinished, message := none }
    | .error =>
        { resp with state := "Error", time_finished := st.timeFinished, error := st.err }
    | .inactive => resp

/-- The run guard `tidyCASGuard`: `atomic.CompareAndSwapUint32(guard, 0, 1)`.
Returns the new flag value and whether the swap happened. -/
def tryStartGuard (flag : Nat) : Nat × Bool :=
  if flag = 0 then (1, true) else (flag, false)

/-- The deferred `atomic.StoreUint32(b.tidyCASGuard, 0)` releasing the guard. -/
def releaseGuard (_flag : Nat) : Nat := 0

/-- A serialized sequence of CAS admission attempts (atomicity of
`CompareAndSwapUint32` means any concurrent schedule is one of these
serializations): returns the final flag and how many attempts succeeded. -/
def runGuardAttempts (flag : Nat) : Nat → Nat × Nat
  | 0 => (flag, 0)
  | Nat.succ n =>
      let r := tryStartGuard flag
      let rest := runGuardAttempts r.1 n
      (rest.1, (if r.2 then 1 else 0) + rest.2)

/-- Outcome of a `Storage.Get` call: a storage error, a nil `*StorageEntry`,
or an entry whose `Value` is `v` (`[]` models both a nil and an empty slice,
exactly the `Value == nil || len(Value) == 0` test). -/
inductive getOutcome where
  | fail (e : String)
  | missing
  | found (v : Bytes)
deriving DecidableEq, Repr

/-- Environment of `doTidyCertStore`: the behaviour of the storage backend and
of `x509.ParseCertificate` during this run, plus the clock.
`listResult` is `Storage.List(ctx, "certs/")`; `get serial` is
`Storage.Get(ctx, "certs/"+serial)`; `deleteCert serial` is the error of
`Storage.Delete(ctx, "certs/"+serial)` (`none` = success). -/
structure certStoreEnv where
  listResult : Except String (List String)
  get : String → getOutcome
  parseCert : Bytes → Except String X509Cert
  deleteCert : String → Option String
  now : Int

/-- Result of the cert-store phase: the threaded status, the serials deleted
from `certs/` in order, and the returned error (`none` = nil). -/
structure certTidyResult where
  status : tidyStatus
  deleted : List String
  err : Option String
deriving DecidableEq, Repr

/-- The progress line set for entry `i` of `total` in `doTidyCertStore`. -/
def certStoreProgress (i total : Nat) : String :=
  "Tidying certificate store: checking entry " ++ toString i ++ " of " ++ toString total

/-- The `for i, serial := range serials` loop of `doTidyCertStore`:
set the progress message; fetch the entry (fetch error aborts); delete and
count nil entries and entries with nil/empty value (delete error aborts);
otherwise parse (parse error aborts) and, when
`time.Now().After(cert.NotAfter.Add(config.SafetyBuffer))`, delete and count. -/
def doTidyCertStoreLoop (env : certStoreEnv) (config : tidyConfig) (total : Nat) :
    List String → Nat → tidyStatus → List String → certTidyResult
  | [], _, st, deleted => ⟨st, deleted, none⟩
  | serial :: rest, i, st, deleted =>
    let st := tidyStatusMessage st (certStoreProgress i total)
    match env.get serial with
    | .fail e =>
        ⟨st, deleted, some ("error fetching certificate " ++ serial ++ ": " ++ e)⟩
    | .missing =>
        match env.deleteCert serial with
        | some e =>
            ⟨st, deleted, some ("error deleting nil entry with serial " ++ serial ++ ": " ++ e)⟩
        | none =>
            doTidyCertStoreLoop env config total rest (i + 1)
              (tidyStatusIncCertStoreCount st) (deleted ++ [serial])
    | .found v =>
        if v.length = 0 then
          match env.deleteCert serial with
          | some e =>
              ⟨st, deleted,
                some ("error deleting entry with nil value with serial " ++ serial ++ ": " ++ e)⟩
          | none =>
              doTidyCertStoreLoop env config total rest (i + 1)
                (tidyStatusIncCertStoreCount st) (deleted ++ [serial])
        else
          match env.parseCert v with
          | .error e =>
              ⟨st, deleted,
                some ("unable to parse stored certificate with serial " ++ serial ++ ": " ++ e)⟩
          | .ok cert =>
              if env.now > cert.notAfter + config.safetyBuffer then
                match env.deleteCert serial with
                | some e =>
                    ⟨st, deleted,
                      some ("error deleting serial " ++ serial ++ " from storage: " ++ e)⟩
                | none =>
                    doTidyCertStoreLoop env config total rest (i + 1)
                      (tidyStatusIncCertStoreCount st) (deleted ++ [serial])
              else
                doTidyCertStoreLoop env config total rest (i + 1) st deleted

/-- `doTidyCertStore`: list `certs/` (list error aborts) and scan every serial. -/
def doTidyCertStore (env : certStoreEnv) (config : tidyConfig) (st : tidyStatus) :
    certTidyResult :=
  match env.listResult with
  | .error e => ⟨st, [], some ("error fetching list of certs: " ++ e)⟩
  | .ok serials => doTidyCertStoreLoop env config serials.length serials 0 st []

/-- Specification-side characterisation of the per-serial deletion decision of
the cert-store scan, to be compared with `doTidyCertStoreLoop`: nil/empty
entries are always deleted; parseable entries are deleted exactly when the
clock is strictly past `notAfter` plus the safety buffer. -/
def certDeleteDecision (env : certStoreEnv) (config : tidyConfig) (serial : String) : Bool :=
  match env.get serial with
  | .fail _ => false
  | .missing => true
  | .found v =>
      if v.length = 0 then true
      else
        match env.parseCert v with
        | .error _ => false
        | .ok cert => decide (env.now > cert.notAfter + config.safetyBuffer)

/-- On a scan that returns no error, the deleted serials are exactly the listed
serials satisfying `certDeleteDecision`, appended to the accumulator, and the
cert-store counter grows by their number. -/
lemma doTidyCertStoreLoop_ok (env : certStoreEnv) (config : tidyConfig) (total : Nat)
    (serials : List String) :
    ∀ (i : Nat) (st : tidyStatus) (d : List String),
      (doTidyCertStoreLoop env config total serials i st d).err = none →
      (doTidyCertStoreLoop env config total serials i st d).deleted
          = d ++ serials.filter (certDeleteDecision env config)
        ∧ (doTidyCertStoreLoop env config total serials i st d).status.certStoreDeletedCount
          = st.certStoreDeletedCount + (serials.filter (certDeleteDecision env config)).length := by
  induction serials with
  | nil => intro i st d h; simp [doTidyCertStoreLoop]
  | cons serial rest ih =>
    intro i st d h
    simp only [doTidyCertStoreLoop] at h ⊢
    cases hget : env.get serial with
    | fail e => simp [hget] at h
    | missing =>
      cases hdel : env.deleteCert serial with
      | some e => simp [hget, hdel] at h
      | none =>
        simp only [hget, hdel] at h ⊢
        have := ih (i + 1) (tidyStatusIncCertStoreCount (tidyStatusMessage st (certStoreProgress i total))) (d ++ [serial]) h
        simpa [certDeleteDecision, hget, tidyStatusIncCertStoreCount, tidyStatusMessage,
          Nat.add_comm, Nat.add_assoc, Nat.add_left_comm] using this
    | found v =>
      by_cases hv : v.length = 0
      · cases hdel : env.deleteCert serial with
        | some e => simp [hget, hv, hdel] at h
        | none =>
          simp only [hget, hv, hdel, if_pos] at h ⊢
          have := ih (i + 1) (tidyStatusIncCertStoreCount (tidyStatusMessage st (certStoreProgress i total))) (d ++ [serial]) h
          simpa [certDeleteDecision, hget, hv, tidyStatusIncCertStoreCount, tidyStatusMessage,
            Nat.add_comm, Nat.add_assoc, Nat.add_left_comm] using this
      · cases hparse : env.parseCert v with
        | error e => simp [hget, hv, hparse] at h
        | ok cert =>
          by_cases hexp : env.now > cert.notAfter + config.safetyBuffer
          · cases hdel : env.deleteCert serial with
            | some e => simp [hget, hv, hparse, hexp, hdel] at h
            | none =>
              simp only [hget, hv, hparse, hexp, hdel, if_pos, if_neg] at h ⊢
              have := ih (i + 1) (tidyStatusIncCertStoreCount (tidyStatusMessage st (certStoreProgress i total))) (d ++ [serial]) h
              simpa [certDeleteDecision, hget, hv, hparse, hexp, tidyStatusIncCertStoreCount,
                tidyStatusMessage, Nat.add_comm, Nat.add_assoc, Nat.add_left_comm] using this
          · simp only [hget, hv, hparse, hexp, if_neg] at h ⊢
            have := ih (i + 1) (tidyStatusMessage st (certStoreProgress i total)) d h
            simpa [certDeleteDecision, hget, hv, hparse, hexp, tidyStatusMessage] using this

/-- C4: a parseable certificate-store entry is deleted (and counted) iff the
current time is strictly after `notAfter + safetyBuffer`; in particular with
`notAfter` at `T`, a run at `now = T + safetyBuffer - 1s` leaves the entry, a
run at `now = T + safetyBuffer` leaves it (strictly-after comparison), and a
run at `now = T + safetyBuffer + 1s` deletes it. -/
theorem claim_C4_cert_store_expiry_boundary
    (env : certStoreEnv) (config : tidyConfig) (st : tidyStatus)
    (serials : List String) (serial : String) (v : Bytes) (cert : X509Cert)
    (hlist : env.listResult = .ok serials)
    (hrun : (doTidyCertStore env config st).err = none)
    (hmem : serial ∈ serials)
    (hget : env.get serial = .found v) (hv : v ≠ [])
    (hparse : env.parseCert v = .ok cert) :
    (serial ∈ (doTidyCertStore env config st).deleted
        ↔ env.now > cert.notAfter + config.safetyBuffer)
      ∧ (env.now = cert.notAfter + config.safetyBuffer - timeSecond
          → serial ∉ (doTidyCertStore env config st).deleted)
      ∧ (env.now = cert.notAfter + config.safetyBuffer
          → serial ∉ (doTidyCertStore env config st).deleted)
      ∧ (env.now = cert.notAfter + config.safetyBuffer + timeSecond
          → serial ∈ (doTidyCertStore env config st).deleted)
      ∧ (doTidyCertStore env config st).status.certStoreDeletedCount
          = st.certStoreDeletedCount
            + (serials.filter (certDeleteDecision env config)).length := by
  have hv' : v.length ≠ 0 := by simpa [List.length_eq_zero] using hv
  simp only [doTidyCertStore, hlist] at hrun ⊢
  obtain ⟨hdel, hcount⟩ :=
    doTidyCertStoreLoop_ok env config serials.length serials 0 st [] hrun
  have hiff :
      serial ∈ (doTidyCertStoreLoop env config serials.length serials 0 st []).deleted
        ↔ env.now > cert.notAfter + config.safetyBuffer := by
    rw [hdel]
    simp [List.mem_filter, hmem, certDeleteDecision, hget, hv', hparse]
  refine ⟨hiff, ?_, ?_, ?_, hcount⟩
  · intro heq; rw [hiff]; simp only [timeSecond] at heq ⊢; omega
  · intro heq; rw [hiff]; omega
  · intro heq; rw [hiff]; simp only [timeSecond] at heq ⊢; omega

/-- A one-entry certificate store whose only certificate has `notAfter = 0`. -/
def c4Env : certStoreEnv :=
  { listResult := .ok ["01"]
    get := fun _ => .found [2]
    parseCert := fun _ => .ok ⟨0⟩
    deleteCert := fun _ => none
    now := 3600 * timeSecond + timeSecond }

/-- Tidy config enabling only the cert-store pass, safety buffer 3600s. -/
def c4Config : tidyConfig :=
  { certStore := true
    revokedCerts := false
    issuerAssocs := false
    safetyBuffer := 3600 * timeSecond }

theorem claim_C4_cert_store_expiry_boundary_witness :
    "01" ∈ (doTidyCertStore c4Env c4Config initialTidyStatus).deleted :=
  (claim_C4_cert_store_expiry_boundary c4Env c4Config initialTidyStatus
      ["01"] "01" [2] ⟨0⟩ rfl rfl (by decide) rfl (by decide) rfl).2.2.2.1 (by decide)

/-- The `revocationInfo` record as used by the tidy scan (declared alongside
the CRL utilities, outside this file): the raw revoked-certificate bytes and
the issuer reference; `""` models an unset `issuerID`. -/
structure revocationInfo where
  certificateBytes : Bytes
  certificateIssuer : String
deriving DecidableEq, Repr

/-- Modelled from the spec: `isRevInfoIssuerValid` (declared with the CRL
utilities, outside this file) — the recorded issuer reference is valid iff it
is non-empty and resolves to a currently known issuer in the issuer map. -/
def isRevInfoIssuerValid (rev : revocationInfo)
    (issuerIDCertMap : List (String × X509Cert)) : Bool :=
  rev.certificateIssuer != "" && issuerIDCertMap.any (fun p => p.1 == rev.certificateIssuer)

/-- Modelled from the spec: `associateRevokedCertWithIsssuer` (declared with
the CRL utilities, outside this file) — walk every known issuer and, when the
revoked certificate matches an issuer's certificate under the external
ownership/signature check, set the entry's issuer reference to that issuer and
report success; otherwise leave the entry and report failure. -/
def associateRevokedCertWithIsssuer (ownedBy : X509Cert → X509Cert → Bool)
    (rev : revocationInfo) (revokedCert : X509Cert)
    (issuerIDCertMap : List (String × X509Cert)) : revocationInfo × Bool :=
  match issuerIDCertMap.find? (fun p => ownedBy revokedCert p.2) with
  | some p => ({ rev with certificateIssuer := p.1 }, true)
  | none => (rev, false)

/-- A storage/CRL side effect performed by the revocation-store scan. -/
inductive RevAction where
  | deleteRevoked (serial : String)
  | deleteCert (serial : String)
  | putRevoked (serial : String) (rev : revocationInfo)
  | rebuildCRL (forced : Bool)
deriving DecidableEq, Repr

/-- Environment of `doTidyRevocationStore`: behaviour of the issuer resolver,
the storage backend, JSON decoding, `x509.ParseCertificate`, the external
issuer-ownership check, the revocation config (`AutoRebuild` flag) and the CRL
builder, plus the clock. `get serial` is `Storage.Get(ctx, "revoked/"+serial)`;
the two delete fields and `putRevoked` give the error of the corresponding
storage call (`none` = success). -/
structure revStoreEnv where
  issuerMapResult : Except String (List (String × X509Cert))
  listResult : Except String (List String)
  get : String → getOutcome
  decodeRevInfo : Bytes → Except String revocationInfo
  parseCert : Bytes → Except String X509Cert
  issuerMatches : X509Cert → X509Cert → Bool
  deleteRevoked : String → Option String
  deleteCert : String → Option String
  putRevoked : String → revocationInfo → Option String
  revocationConfigResult : Except String Bool
  rebuildResult : Option String
  now : Int

/-- Result of one iteration of the revocation scan: the threaded status, the
side effects performed, whether this iteration set `rebuildCRL`, and the
returned error. -/
structure revStepResult where
  status : tidyStatus
  actions : List RevAction
  rebuild : Bool
  err : Option String
deriving DecidableEq, Repr

/-- One iteration of the `for i, serial := range revokedSerials` loop of
`doTidyRevocationStore` (after the progress message): fetch (error aborts);
delete and count nil/empty entries; JSON-decode and parse (errors abort); if
`config.IssuerAssocs` and the issuer reference is invalid, increment the
missing-issuer counter, clear the reference, try to re-associate and set
`storeCert`; if `config.RevokedCerts` and the clock is strictly past
`NotAfter + SafetyBuffer`, delete `revoked/` and `certs/` entries, set
`rebuildCRL`, clear `storeCert` and count; finally, if `storeCert` is still
set, write the updated record back. -/
def doTidyRevocationStoreStep (env : revStoreEnv) (config : tidyConfig)
    (issuerIDCertMap : List (String × X509Cert)) (serial : String)
    (st : tidyStatus) : revStepResult :=
  match env.get serial with
  | .fail e =>
      ⟨st, [], false, some ("unable to fetch revoked cert with serial " ++ serial ++ ": " ++ e)⟩
  | .missing =>
      match env.deleteRevoked serial with
      | some e =>
          ⟨st, [], false,
            some ("error deleting nil revoked entry with serial " ++ serial ++ ": " ++ e)⟩
      | none =>
          ⟨tidyStatusIncRevokedCertCount st, [.deleteRevoked serial], false, none⟩
  | .found v =>
      if v.length = 0 then
        match env.deleteRevoked serial with
        | some e =>
            ⟨st, [], false,
              some ("error deleting revoked entry with nil value with serial " ++ serial
                ++ ": " ++ e)⟩
        | none =>
            ⟨tidyStatusIncRevokedCertCount st, [.deleteRevoked serial], false, none⟩
      else
        match env.decodeRevInfo v with
        | .error e =>
            ⟨st, [], false,
              some ("error decoding revocation entry for serial " ++ serial ++ ": " ++ e)⟩
        | .ok revInfo =>
            match env.parseCert revInfo.certificateBytes with
            | .error e =>
                ⟨st, [], false,
                  some ("unable to parse stored revoked certificate with serial " ++ serial
                    ++ ": " ++ e)⟩
            | .ok revokedCert =>
                let repaired :=
                  if config.issuerAssocs
                      && !(isRevInfoIssuerValid revInfo issuerIDCertMap) then
                    let st := tidyStatusIncMissingIssuerCertCount st
                    let revInfo := { revInfo with certificateIssuer := "" }
                    let assoc :=
                      associateRevokedCertWithIsssuer env.issuerMatches revInfo revokedCert
                        issuerIDCertMap
                    (st, assoc.1, true)
                  else
                    (st, revInfo, false)
                let st := repaired.1
                let revInfo := repaired.2.1
                let storeCert := repaired.2.2
                if config.revokedCerts
                    && decide (env.now > revokedCert.notAfter + config.safetyBuffer) then
                  match env.deleteRevoked serial with
                  | some e =>
                      ⟨st, [], false,
                        some ("error deleting serial " ++ serial ++ " from revoked list: " ++ e)⟩
                  | none =>
                      match env.deleteCert serial with
                      | some e =>
                          ⟨st, [RevAction.deleteRevoked serial], false,
                            some ("error deleting serial " ++ serial
                              ++ " from store when tidying revoked: " ++ e)⟩
                      | none =>
                          ⟨tidyStatusIncRevokedCertCount st,
                            [RevAction.deleteRevoked serial, RevAction.deleteCert serial],
                            true, none⟩
                else
                  if storeCert then
                    match env.putRevoked serial revInfo with
                    | some e =>
                        ⟨st, [], false,
                          some ("error persisting changes to serial " ++ serial
                            ++ " from revoked list: " ++ e)⟩
                    | none =>
                        ⟨st, [RevAction.putRevoked serial revInfo], false, none⟩
                  else
                    ⟨st, [], false, none⟩

/-- Result of the whole revocation scan before the CRL-rebuild decision. -/
structure revScanResult where
  status : tidyStatus
  actions : List RevAction
  rebuildCRL : Bool
  err : Option String
deriving DecidableEq, Repr

/-- The progress line set for revoked entry `i` of `total`. -/
def revokedProgress (i total : Nat) : String :=
  "Tidying revoked certificates: checking certificate " ++ toString i ++ " of " ++ toString total

/-- The revocation scan loop: set the progress message and run the per-entry
step for each serial, accumulating side effects and the `rebuildCRL` flag and
aborting on the first error. -/
def doTidyRevocationStoreLoop (env : revStoreEnv) (config : tidyConfig)
    (issuerIDCertMap : List (String × X509Cert)) (total : Nat) :
    List String → Nat → tidyStatus → List RevAction → Bool → revScanResult
  | [], _, st, acts, rb => ⟨st, acts, rb, none⟩
  | serial :: rest, i, st, acts, rb =>
    let st := tidyStatusMessage st (revokedProgress i total)
    let r := doTidyRevocationStoreStep env config issuerIDCertMap serial st
    match r.err with
    | some e => ⟨r.status, acts ++ r.actions, rb || r.rebuild, some e⟩
    | none =>
        doTidyRevocationStoreLoop env config issuerIDCertMap total rest (i + 1) r.status
          (acts ++ r.actions) (rb || r.rebuild)

/-- Result of the revocation phase: threaded status, side effects (including
any CRL rebuild, which is last), and the returned error. -/
structure revTidyResult where
  status : tidyStatus
  actions : List RevAction
  err : Option String
deriving DecidableEq, Repr

/-- `doTidyRevocationStore`: resolve the issuer map (failure aborts), list
`revoked/` (failure aborts), scan every serial, and afterwards — when some
expiry deletion set `rebuildCRL` — fetch the revocation config (failure
aborts) and, unless `AutoRebuild` is enabled, invoke
`b.crlBuilder.rebuild(ctx, b, req, false)`, whose error is the phase error. -/
def doTidyRevocationStore (env : revStoreEnv) (config : tidyConfig)
    (st : tidyStatus) : revTidyResult :=
  match env.issuerMapResult with
  | .error e => ⟨st, [], some e⟩
  | .ok issuerIDCertMap =>
      match env.listResult with
      | .error e => ⟨st, [], some ("error fetching list of revoked certs: " ++ e)⟩
      | .ok revokedSerials =>
          let scan :=
            doTidyRevocationStoreLoop env config issuerIDCertMap revokedSerials.length
              revokedSerials 0 st [] false
          match scan.err with
          | some e => ⟨scan.status, scan.actions, some e⟩
          | none =>
              if scan.rebuildCRL then
                match env.revocationConfigResult with
                | .error e => ⟨scan.status, scan.actions, some e⟩
                | .ok autoRebuild =>
                    if !autoRebuild then
                      match env.rebuildResult with
                      | some e =>
                          ⟨scan.status, scan.actions ++ [RevAction.rebuildCRL false], some e⟩
                      | none =>
                          ⟨scan.status, scan.actions ++ [RevAction.rebuildCRL false], none⟩
                    else
                      ⟨scan.status, scan.actions, none⟩
              else
                ⟨scan.status, scan.actions, none⟩

/-- Result of the `doTidy` closure of `startTidyOperation`: threaded status,
both phases' side effects, and the error the closure returns. -/
structure doTidyResult where
  status : tidyStatus
  certDeleted : List String
  revActions : List RevAction
  err : Option String
deriving DecidableEq, Repr

/-- The `doTidy` closure of `startTidyOperation`: run the cert-store phase
when `config.CertStore` and return its error on failure; then, when
`config.RevokedCerts || config.IssuerAssocs`, run the revocation phase — but
on its failure the source executes `return nil` (path_tidy.go, inside
`startTidyOperation`), so the closure returns a nil error either way. -/
def doTidy (envC : certStoreEnv) (envR : revStoreEnv) (config : tidyConfig)
    (st : tidyStatus) : doTidyResult :=
  let certPhase :=
    if config.certStore then
      let r := doTidyCertStore envC config st
      (r.status, r.deleted, r.err)
    else
      (st, [], none)
  match certPhase.2.2 with
  | some e => ⟨certPhase.1, certPhase.2.1, [], some e⟩
  | none =>
      if config.revokedCerts || config.issuerAssocs then
        let r := doTidyRevocationStore envR config certPhase.1
        match r.err with
        | some _ => ⟨r.status, certPhase.2.1, r.actions, none⟩
        | none => ⟨r.status, certPhase.2.1, r.actions, none⟩
      else
        ⟨certPhase.1, certPhase.2.1, [], none⟩

/-- Result of a complete admitted run: the final status, both phases' side
effects, and the guard flag after the deferred release. -/
structure tidyRunResult where
  status : tidyStatus
  certDeleted : List String
  revActions : List RevAction
  guard : Nat
deriving DecidableEq, Repr

/-- The goroutine body of `startTidyOperation`: `tidyStatusStart(config)`, run
the `doTidy` closure, then `tidyStatusStop` with its error (nil on success);
the deferred `atomic.StoreUint32(b.tidyCASGuard, 0)` releases the guard on
every exit path. -/
def startTidyOperationRun (envC : certStoreEnv) (envR : revStoreEnv)
    (config : tidyConfig) (startTime stopTime : Int) (guard : Nat) : tidyRunResult :=
  let st := tidyStatusStart config startTime
  let r := doTidy envC envR config st
  let st := tidyStatusStop r.status r.err stopTime
  ⟨st, r.certDeleted, r.revActions, releaseGuard guard⟩

/-- Whether an action is a `certs/` deletion (these are emitted only by the
expiry branch of the revocation scan). -/
def isDeleteCertAction : RevAction → Bool
  | .deleteCert _ => true
  | _ => false

/-- Whether an action is a CRL rebuild invocation. -/
def isRebuildAction : RevAction → Bool
  | .rebuildCRL _ => true
  | _ => false

/-- Specification-side characterisation of the entries that take the
missing-issuer repair branch, to be compared with
`doTidyRevocationStoreStep`: `tidyIssuerAssociations` is on, the entry is
present, non-empty, decodable and parseable, and its issuer reference is
invalid. -/
def missingIssuerQualifies (env : revStoreEnv) (config : tidyConfig)
    (issuerIDCertMap : List (String × X509Cert)) (serial : String) : Bool :=
  config.issuerAssocs &&
    (match env.get serial with
     | .found v =>
         if v.length = 0 then false
         else
           match env.decodeRevInfo v with
           | .ok rev =>
               (match env.parseCert rev.certificateBytes with
                | .ok _ => !(isRevInfoIssuerValid rev issuerIDCertMap)
                | .error _ => false)
           | .error _ => false
     | _ => false)

/-- Enumeration of one iteration of the revocation scan: the emitted effects
take one of four shapes (nothing, a lone `revoked/` deletion, the
expiry-deletion pair, or a lone rewrite); `rebuildCRL` is set exactly when a
`certs/` deletion was emitted; no iteration emits a CRL rebuild; and the
missing-issuer counter is bumped exactly when the entry qualifies for issuer
repair, independently of deletions, write-backs and their errors. -/
lemma revStep_enum (env : revStoreEnv) (config : tidyConfig)
    (imap : List (String × X509Cert)) (serial : String) (st : tidyStatus) :
    ((doTidyRevocationStoreStep env config imap serial st).actions = []
      ∨ (doTidyRevocationStoreStep env config imap serial st).actions
          = [RevAction.deleteRevoked serial]
      ∨ (doTidyRevocationStoreStep env config imap serial st).actions
          = [RevAction.deleteRevoked serial, RevAction.deleteCert serial]
      ∨ (∃ rv, (doTidyRevocationStoreStep env config imap serial st).actions
          = [RevAction.putRevoked serial rv]))
    ∧ (doTidyRevocationStoreStep env config imap serial st).rebuild
        = (doTidyRevocationStoreStep env config imap serial st).actions.any isDeleteCertAction
    ∧ (doTidyRevocationStoreStep env config imap serial st).actions.any isRebuildAction = false
    ∧ (doTidyRevocationStoreStep env config imap serial st).status.missingIssuerCertCount
        = st.missingIssuerCertCount
          + (if missingIssuerQualifies env config imap serial then 1 else 0) := by
  cases hget : env.get serial with
  | fail e =>
      simp [doTidyRevocationStoreStep, missingIssuerQualifies, hget, isRebuildAction]
  | missing =>
      cases hdel : env.deleteRevoked serial <;>
        simp [doTidyRevocationStoreStep, missingIssuerQualifies, hget, hdel,
          isDeleteCertAction, isRebuildAction, tidyStatusIncRevokedCertCount]
  | found v =>
      by_cases hv : v.length = 0
      · cases hdel : env.deleteRevoked serial <;>
          simp [doTidyRevocationStoreStep, missingIssuerQualifies, hget, hv, hdel,
            isDeleteCertAction, isRebuildAction, tidyStatusIncRevokedCertCount]
      · cases hdec : env.decodeRevInfo v with
        | error e =>
            simp [doTidyRevocationStoreStep, missingIssuerQualifies, hget, hv, hdec,
              isRebuildAction]
        | ok rev =>
            cases hparse : env.parseCert rev.certificateBytes with
            | error e =>
                simp [doTidyRevocationStoreStep, missingIssuerQualifies, hget, hv, hdec,
                  hparse, isRebuildAction]
            | ok cert =>
                by_cases hia : (config.issuerAssocs && !isRevInfoIssuerValid rev imap) = true
                · by_cases hexp :
                      (config.revokedCerts
                        && decide (env.now > cert.notAfter + config.safetyBuffer)) = true
                  · cases hdelR : env.deleteRevoked serial with
                    | some e =>
                        simp [doTidyRevocationStoreStep, missingIssuerQualifies, hget, hv,
                          hdec, hparse, hia, hexp, hdelR, isRebuildAction,
                          tidyStatusIncMissingIssuerCertCount]
                    | none =>
                        cases hdelC : env.deleteCert serial <;>
                          simp [doTidyRevocationStoreStep, missingIssuerQualifies, hget, hv,
                            hdec, hparse, hia, hexp, hdelR, hdelC, isDeleteCertAction,
                            isRebuildAction, tidyStatusIncMissingIssuerCertCount,
                            tidyStatusIncRevokedCertCount]
                  · cases hput :
                        env.putRevoked serial
                          ((associateRevokedCertWithIsssuer env.issuerMatches
                              { rev with certificateIssuer := "" } cert imap).1) <;>
                      simp [doTidyRevocationStoreStep, missingIssuerQualifies, hget, hv,
                        hdec, hparse, hia, hexp, hput, isDeleteCertAction, isRebuildAction,
                        tidyStatusIncMissingIssuerCertCount]
                · by_cases hexp :
                      (config.revokedCerts
                        && decide (env.now > cert.notAfter + config.safetyBuffer)) = true
                  · cases hdelR : env.deleteRevoked serial with
                    | some e =>
                        simp [doTidyRevocationStoreStep, missingIssuerQualifies, hget, hv,
                          hdec, hparse, hia, hexp, hdelR, isRebuildAction]
                    | none =>
                        cases hdelC : env.deleteCert serial <;>
                          simp [doTidyRevocationStoreStep, missingIssuerQualifies, hget, hv,
                            hdec, hparse, hia, hexp, hdelR, hdelC, isDeleteCertAction,
                            isRebuildAction, tidyStatusIncRevokedCertCount]
                  · simp [doTidyRevocationStoreStep, missingIssuerQualifies, hget, hv,
                      hdec, hparse, hia, hexp, isRebuildAction]

/-- The revocation scan loop appends a tail of new effects to the accumulator:
the final `rebuildCRL` flag is the initial one joined with whether the tail
contains a `certs/` deletion, and the tail never contains a rebuild action. -/
lemma revLoop_actions (env : revStoreEnv) (config : tidyConfig)
    (imap : List (String × X509Cert)) (total : Nat) (serials : List String) :
    ∀ (i : Nat) (st : tidyStatus) (acts : List RevAction) (rb : Bool),
      ∃ tail,
        (doTidyRevocationStoreLoop env config imap total serials i st acts rb).actions
            = acts ++ tail
        ∧ (doTidyRevocationStoreLoop env config imap total serials i st acts rb).rebuildCRL
            = (rb || tail.any isDeleteCertAction)
        ∧ tail.any isRebuildAction = false := by
  induction serials with
  | nil =>
      intro i st acts rb
      refine ⟨[], ?_, ?_, ?_⟩ <;> simp [doTidyRevocationStoreLoop]
  | cons serial rest ih =>
      intro i st acts rb
      simp only [doTidyRevocationStoreLoop]
      obtain ⟨_, hrbeq, hnorb, _⟩ :=
        revStep_enum env config imap serial (tidyStatusMessage st (revokedProgress i total))
      cases herr :
          (doTidyRevocationStoreStep env config imap serial
            (tidyStatusMessage st (revokedProgress i total))).err with
      | some e =>
          refine ⟨(doTidyRevocationStoreStep env config imap serial
              (tidyStatusMessage st (revokedProgress i total))).actions, ?_, ?_, ?_⟩ <;>
            simp [herr, hrbeq, hnorb]
      | none =>
          obtain ⟨tail, h1, h2, h3⟩ :=
            ih (i + 1)
              (doTidyRevocationStoreStep env config imap serial
                (tidyStatusMessage st (revokedProgress i total))).status
              (acts ++ (doTidyRevocationStoreStep env config imap serial
                (tidyStatusMessage st (revokedProgress i total))).actions)
              (rb || (doTidyRevocationStoreStep env config imap serial
                (tidyStatusMessage st (revokedProgress i total))).rebuild)
          refine ⟨(doTidyRevocationStoreStep env config imap serial
              (tidyStatusMessage st (revokedProgress i total))).actions ++ tail, ?_, ?_, ?_⟩
          · simp [herr, h1, List.append_assoc]
          · simp only [herr]
            rw [hrbeq] at h2 ⊢
            rw [h2]
            simp [List.any_append, Bool.or_assoc]
          · simp [List.any_append, hnorb, h3]

/-- On a scan that completes without error, the missing-issuer counter grows by
exactly the number of listed serials qualifying for issuer repair. -/
lemma revLoop_missing_count (env : revStoreEnv) (config : tidyConfig)
    (imap : List (String × X509Cert)) (total : Nat) (serials : List String) :
    ∀ (i : Nat) (st : tidyStatus) (acts : List RevAction) (rb : Bool),
      (doTidyRevocationStoreLoop env config imap total serials i st acts rb).err = none →
      (doTidyRevocationStoreLoop env config imap total serials i st acts rb).status.missingIssuerCertCount
        = st.missingIssuerCertCount
          + serials.countP (missingIssuerQualifies env config imap) := by
  induction serials with
  | nil => intro i st acts rb h; simp [doTidyRevocationStoreLoop]
  | cons serial rest ih =>
      intro i st acts rb h
      simp only [doTidyRevocationStoreLoop] at h ⊢
      have hcount :=
        (revStep_enum env config imap serial
          (tidyStatusMessage st (revokedProgress i total))).2.2.2
      cases herr :
          (doTidyRevocationStoreStep env config imap serial
            (tidyStatusMessage st (revokedProgress i total))).err with
      | some e => simp [herr] at h
      | none =>
          simp only [herr] at h ⊢
          rw [ih _ _ _ _ h, hcount]
          simp only [tidyStatusMessage, List.countP_cons]
          by_cases hq : missingIssuerQualifies env config imap serial = true <;>
            simp [hq] <;> omega

/-- The response category produced by `pathTidyWrite`: a user-level
`logical.ErrorResponse`, the 202 response carrying the
"Tidy operation already in progress." warning (no run started), or the 202
response for an admitted run — with either the "No targets to tidy" warning
or the "successfully started" warning. -/
inductive tidyWriteOutcome where
  | errorResponse (msg : String)
  | warningInProgress
  | acceptedNoTargets
  | acceptedStarted
deriving DecidableEq, Repr

/-- `pathTidyWrite`: read the request fields (`tidy_revocation_list` is a
deprecated synonym OR-ed into `tidy_revoked_certs`); reject `safety_buffer < 1`
with a user error; build the config with the buffer converted to a duration;
try the CAS guard — on failure respond with the in-progress warning and start
nothing; on success launch the run and respond 202. Returns the response
category, the guard flag after the call, and the config of the launched run
(`none` when no run was started). -/
def pathTidyWrite (guard : Nat) (safety_buffer : Int)
    (tidy_cert_store tidy_revocation_list tidy_revoked_certs
      tidy_revoked_cert_issuer_associations : Bool) :
    tidyWriteOutcome × Nat × Option tidyConfig :=
  let safetyBuffer := safety_buffer
  let tidyCertStore := tidy_cert_store
  let tidyRevokedCerts := tidy_revoked_certs || tidy_revocation_list
  let tidyRevokedAssocs := tidy_revoked_cert_issuer_associations
  if safetyBuffer < 1 then
    (.errorResponse "safety_buffer must be greater than zero", guard, none)
  else
    let bufferDuration := safetyBuffer * timeSecond
    let config : tidyConfig :=
      { certStore := tidyCertStore
        revokedCerts := tidyRevokedCerts
        issuerAssocs := tidyRevokedAssocs
        safetyBuffer := bufferDuration }
    let cas := tryStartGuard guard
    if !cas.2 then
      (.warningInProgress, cas.1, none)
    else
      if !tidyCertStore && !tidyRevokedCerts && !tidyRevokedAssocs then
        (.acceptedNoTargets, cas.1, some config)
      else
        (.acceptedStarted, cas.1, some config)

/-- The status-tracker operations available to a run, in the order the tidy
code invokes them: `tidyStatusStart`, the per-entry mutators, and
`tidyStatusStop`. -/
inductive statusOp where
  | start (config : tidyConfig) (now : Int)
  | message (msg : String)
  | incCertStore
  | incRevoked
  | incMissingIssuer
  | stop (e : Option String) (now : Int)
deriving DecidableEq, Repr

/-- Apply one status-tracker operation. -/
def applyStatusOp (st : tidyStatus) : statusOp → tidyStatus
  | .start config now => tidyStatusStart config now
  | .message m => tidyStatusMessage st m
  | .incCertStore => tidyStatusIncCertStoreCount st
  | .incRevoked => tidyStatusIncRevokedCertCount st
  | .incMissingIssuer => tidyStatusIncMissingIssuerCertCount st
  | .stop e now => tidyStatusStop st e now

/-- The operations a run performs strictly between its `start` and `stop`. -/
def isMidOp : statusOp → Bool
  | .start _ _ => false
  | .stop _ _ => false
  | _ => true

/-- Apply a sequence of status-tracker operations. -/
def applyStatusOps (st : tidyStatus) (ops : List statusOp) : tidyStatus :=
  ops.foldl applyStatusOp st

/-- A mid-run operation (progress message or counter bump) preserves the state
and never decreases a counter. -/
lemma applyStatusOp_mid (st : tidyStatus) (op : statusOp) (h : isMidOp op = true) :
    (applyStatusOp st op).state = st.state
      ∧ st.certStoreDeletedCount ≤ (applyStatusOp st op).certStoreDeletedCount
      ∧ st.revokedCertDeletedCount ≤ (applyStatusOp st op).revokedCertDeletedCount
      ∧ st.missingIssuerCertCount ≤ (applyStatusOp st op).missingIssuerCertCount := by
  cases op <;>
    simp_all [applyStatusOp, isMidOp, tidyStatusMessage, tidyStatusIncCertStoreCount,
      tidyStatusIncRevokedCertCount, tidyStatusIncMissingIssuerCertCount]


/-- A revocation-store environment with nothing to scan and no failures. -/
def emptyRevEnv : revStoreEnv :=
  { issuerMapResult := .ok []
    listResult := .ok []
    get := fun _ => .missing
    decodeRevInfo := fun _ => .error "no decode"
    parseCert := fun _ => .error "no parse"
    issuerMatches := fun _ _ => false
    deleteRevoked := fun _ => none
    deleteCert := fun _ => none
    putRevoked := fun _ _ => none
    revocationConfigResult := .ok false
    rebuildResult := none
    now := 0 }

/-- A certificate-store environment whose `Storage.List` call fails. -/
def c1CertFailEnv : certStoreEnv :=
  { listResult := .error "boom"
    get := fun _ => .missing
    parseCert := fun _ => .error "nope"
    deleteCert := fun _ => none
    now := 0 }

/-- A revocation-store environment whose issuer-map fetch fails. -/
def c1RevEnv : revStoreEnv :=
  { emptyRevEnv with issuerMapResult := .error "unable to fetch issuers" }

/-- A revocation-store environment holding one nil entry, so a scan would
delete it (observable through `revActions`). -/
def c1RevBusyEnv : revStoreEnv :=
  { emptyRevEnv with listResult := .ok ["01"] }

/-- Tidy config enabling only the revocation pass, safety buffer 72h. -/
def c1Config : tidyConfig :=
  { certStore := false
    revokedCerts := true
    issuerAssocs := false
    safetyBuffer := 259200 * timeSecond }

/-- Tidy config enabling both passes, safety buffer 72h. -/
def c1BothConfig : tidyConfig :=
  { certStore := true
    revokedCerts := true
    issuerAssocs := false
    safetyBuffer := 259200 * timeSecond }

/-- C1: a cert-store phase error does abort the run (state `Error`, error
recorded, revocation phase never executed) — but a revocation phase error is
NOT the run's terminal error: on an input where `doTidyRevocationStore`
returns an error, `startTidyOperation`'s closure executes `return nil`, so
the run stops with a nil error, final state `Finished` and no recorded error,
contradicting the claim (and matching the `return nil` slip in the source). -/
theorem claim_C1_revocation_error_swallowed :
    ((startTidyOperationRun c1CertFailEnv c1RevBusyEnv c1BothConfig 0 1 1).status.state
        = tidyState.error
      ∧ (startTidyOperationRun c1CertFailEnv c1RevBusyEnv c1BothConfig 0 1 1).status.err
        = some "error fetching list of certs: boom"
      ∧ (startTidyOperationRun c1CertFailEnv c1RevBusyEnv c1BothConfig 0 1 1).revActions = [])
    ∧ ((doTidyRevocationStore c1RevEnv c1Config (tidyStatusStart c1Config 0)).err
        = some "unable to fetch issuers"
      ∧ (startTidyOperationRun c4Env c1RevEnv c1Config 0 1 1).status.state
        = tidyState.finished
      ∧ (startTidyOperationRun c4Env c1RevEnv c1Config 0 1 1).status.err = none) :=
  ⟨⟨rfl, rfl, rfl⟩, ⟨rfl, rfl, rfl⟩⟩

/-- Once the guard flag is 1, every further serialized CAS attempt fails and
leaves the flag at 1. -/
lemma runGuardAttempts_busy (n : Nat) : runGuardAttempts 1 n = (1, 0) := by
  induction n with
  | zero => rfl
  | succ m ih => simp [runGuardAttempts, tryStartGuard, ih]

/-- C2: while a run is active (guard flag 1), a valid start request receives
the non-fatal "already in progress" warning response, the guard is untouched
and no run is started; among any number of serialized CAS admission attempts
from an idle guard exactly one succeeds; and a completed run (success or
failure) always leaves the guard flag at 0. -/
theorem claim_C2_run_guard_mutual_exclusion :
    (∀ (safety_buffer : Int) (b1 b2 b3 b4 : Bool), 1 ≤ safety_buffer →
        pathTidyWrite 1 safety_buffer b1 b2 b3 b4
          = (tidyWriteOutcome.warningInProgress, 1, none))
    ∧ (∀ n : Nat, 1 ≤ n → (runGuardAttempts 0 n).2 = 1)
    ∧ (∀ (envC : certStoreEnv) (envR : revStoreEnv) (config : tidyConfig)
        (t0 t1 : Int) (g : Nat),
        (startTidyOperationRun envC envR config t0 t1 g).guard = 0) := by
  refine ⟨?_, ?_, ?_⟩
  · intro sb b1 b2 b3 b4 h
    have h1 : ¬(sb < 1) := by omega
    simp [pathTidyWrite, h1, tryStartGuard]
  · intro n hn
    cases n with
    | zero => omega
    | succ m => simp [runGuardAttempts, tryStartGuard, runGuardAttempts_busy]
  · intro envC envR config t0 t1 g
    rfl

theorem claim_C2_run_guard_mutual_exclusion_witness :
    pathTidyWrite 1 259200 true false false false
        = (tidyWriteOutcome.warningInProgress, 1, none)
      ∧ (runGuardAttempts 0 2).2 = 1
      ∧ (startTidyOperationRun c4Env emptyRevEnv c4Config 0 1 1).guard = 0 :=
  ⟨claim_C2_run_guard_mutual_exclusion.1 259200 true false false false (by decide),
    claim_C2_run_guard_mutual_exclusion.2.1 2 (by decide),
    claim_C2_run_guard_mutual_exclusion.2.2 c4Env emptyRevEnv c4Config 0 1 1⟩

/-- C7: a start request with `safety_buffer < 1` is rejected with the
user-level validation error; the guard is returned untouched (the CAS is
never attempted) and no run is started, so the tidy status is not mutated. -/
theorem claim_C7_safety_buffer_validation (guard : Nat) (safety_buffer : Int)
    (b1 b2 b3 b4 : Bool) (h : safety_buffer < 1) :
    pathTidyWrite guard safety_buffer b1 b2 b3 b4
      = (tidyWriteOutcome.errorResponse "safety_buffer must be greater than zero",
          guard, none) := by
  simp [pathTidyWrite, h]

theorem claim_C7_safety_buffer_validation_witness :
    pathTidyWrite 0 0 true true true true
      = (tidyWriteOutcome.errorResponse "safety_buffer must be greater than zero",
          0, none) :=
  claim_C7_safety_buffer_validation 0 0 true true true true (by decide)

/-- C8: the status machine only moves `Inactive/previous → Running` at
`tidyStatusStart` (which zeroes every counter), stays in its state under
mid-run operations which never decrease a counter, and moves to
`Finished`/`Error` at `tidyStatusStop` according to the terminal error; a
complete run always ends in `Finished` or `Error`. -/
theorem claim_C8_status_machine :
    (∀ (config : tidyConfig) (now : Int),
        (tidyStatusStart config now).state = tidyState.started
        ∧ (tidyStatusStart config now).certStoreDeletedCount = 0
        ∧ (tidyStatusStart config now).revokedCertDeletedCount = 0
        ∧ (tidyStatusStart config now).missingIssuerCertCount = 0)
    ∧ (∀ (st : tidyStatus) (ops : List statusOp),
        (∀ op ∈ ops, isMidOp op = true) →
        (applyStatusOps st ops).state = st.state
        ∧ st.certStoreDeletedCount ≤ (applyStatusOps st ops).certStoreDeletedCount
        ∧ st.revokedCertDeletedCount ≤ (applyStatusOps st ops).revokedCertDeletedCount
        ∧ st.missingIssuerCertCount ≤ (applyStatusOps st ops).missingIssuerCertCount)
    ∧ (∀ (st : tidyStatus) (e : Option String) (now : Int),
        (tidyStatusStop st e now).state
          = (if e = none then tidyState.finished else tidyState.error))
    ∧ (∀ (envC : certStoreEnv) (envR : revStoreEnv) (config : tidyConfig)
        (t0 t1 : Int) (g : Nat),
        (startTidyOperationRun envC envR config t0 t1 g).status.state = tidyState.finished
        ∨ (startTidyOperationRun envC envR config t0 t1 g).status.state = tidyState.error) := by
  refine ⟨?_, ?_, ?_, ?_⟩
  · intro config now
    exact ⟨rfl, rfl, rfl, rfl⟩
  · intro st ops
    induction ops generalizing st with
    | nil => intro _; simp [applyStatusOps]
    | cons op rest ih =>
        intro h
        have hop := applyStatusOp_mid st op (h op (by simp))
        have hrest := ih (applyStatusOp st op) (fun o ho => h o (by simp [ho]))
        simp only [applyStatusOps, List.foldl_cons] at hrest ⊢
        exact ⟨hrest.1.trans hop.1,
          hop.2.1.trans hrest.2.1,
          hop.2.2.1.trans hrest.2.2.1,
          hop.2.2.2.trans hrest.2.2.2⟩
  · intro st e now
    cases e <;> simp [tidyStatusStop]
  · intro envC envR config t0 t1 g
    cases herr : (doTidy envC envR config (tidyStatusStart config t0)).err with
    | some e => right; simp [startTidyOperationRun, tidyStatusStop, herr]
    | none => left; simp [startTidyOperationRun, tidyStatusStop, herr]

theorem claim_C8_status_machine_witness :
    ((tidyStatusStart c4Config 0).state = tidyState.started
        ∧ (tidyStatusStart c4Config 0).certStoreDeletedCount = 0
        ∧ (tidyStatusStart c4Config 0).revokedCertDeletedCount = 0
        ∧ (tidyStatusStart c4Config 0).missingIssuerCertCount = 0)
      ∧ ((applyStatusOps initialTidyStatus [statusOp.incCertStore]).state
            = initialTidyStatus.state
        ∧ initialTidyStatus.certStoreDeletedCount
            ≤ (applyStatusOps initialTidyStatus [statusOp.incCertStore]).certStoreDeletedCount
        ∧ initialTidyStatus.revokedCertDeletedCount
            ≤ (applyStatusOps initialTidyStatus [statusOp.incCertStore]).revokedCertDeletedCount
        ∧ initialTidyStatus.missingIssuerCertCount
            ≤ (applyStatusOps initialTidyStatus [statusOp.incCertStore]).missingIssuerCertCount)
      ∧ (tidyStatusStop initialTidyStatus none 5).state
          = (if (none : Option String) = none then tidyState.finished else tidyState.error)
      ∧ ((startTidyOperationRun c4Env emptyRevEnv c4Config 0 1 1).status.state
            = tidyState.finished
        ∨ (startTidyOperationRun c4Env emptyRevEnv c4Config 0 1 1).status.state
            = tidyState.error) :=
  ⟨claim_C8_status_machine.1 c4Config 0,
    claim_C8_status_machine.2.1 initialTidyStatus [statusOp.incCertStore] (by decide),
    claim_C8_status_machine.2.2.1 initialTidyStatus none 5,
    claim_C8_status_machine.2.2.2 c4Env emptyRevEnv c4Config 0 1 1⟩

/-- C9: while the tracker is `Inactive` the snapshot reports every field
except `state` as nil; `tidyStatusStop` stamps `timeFinished` and picks
`Finished` exactly when the terminal error is nil; the `Finished` snapshot
reports the progress message as nil, while the `Error` snapshot preserves the
progress message and populates the error string. -/
theorem claim_C9_status_snapshot :
    (∀ st : tidyStatus, st.state = tidyState.inactive →
        pathTidyStatusRead st =
          { safety_buffer := none
            tidy_cert_store := none
            tidy_revoked_certs := none
            tidy_revoked_cert_issuer_associations := none
            state := "Inactive"
            error := none
            time_started := none
            time_finished := none
            message := none
            cert_store_deleted_count := none
            revoked_cert_deleted_count := none
            missing_issuer_cert_count := none })
    ∧ (∀ (st : tidyStatus) (e : Option String) (now : Int),
        (tidyStatusStop st e now).timeFinished = some now
        ∧ (tidyStatusStop st e now).state
            = (if e = none then tidyState.finished else tidyState.error))
    ∧ (∀ (st : tidyStatus) (now : Int),
        (pathTidyStatusRead (tidyStatusStop st none now)).state = "Finished"
        ∧ (pathTidyStatusRead (tidyStatusStop st none now)).message = none
        ∧ (pathTidyStatusRead (tidyStatusStop st none now)).error = none
        ∧ (pathTidyStatusRead (tidyStatusStop st none now)).time_finished = some now)
    ∧ (∀ (st : tidyStatus) (e : String) (now : Int),
        (pathTidyStatusRead (tidyStatusStop st (some e) now)).state = "Error"
        ∧ (pathTidyStatusRead (tidyStatusStop st (some e) now)).message = st.message
        ∧ (pathTidyStatusRead (tidyStatusStop st (some e) now)).error = some e
        ∧ (pathTidyStatusRead (tidyStatusStop st (some e) now)).time_finished = some now) := by
  refine ⟨?_, ?_, ?_, ?_⟩
  · intro st h
    simp [pathTidyStatusRead, h]
  · intro st e now
    exact ⟨rfl, rfl⟩
  · intro st now
    refine ⟨?_, ?_, ?_, ?_⟩ <;> simp [pathTidyStatusRead, tidyStatusStop]
  · intro st e now
    refine ⟨?_, ?_, ?_, ?_⟩ <;> simp [pathTidyStatusRead, tidyStatusStop]

theorem claim_C9_status_snapshot_witness :
    pathTidyStatusRead initialTidyStatus =
        { safety_buffer := none
          tidy_cert_store := none
          tidy_revoked_certs := none
          tidy_revoked_cert_issuer_associations := none
          state := "Inactive"
          error := none
          time_started := none
          time_finished := none
          message := none
          cert_store_deleted_count := none
          revoked_cert_deleted_count := none
          missing_issuer_cert_count := none }
      ∧ ((tidyStatusStop initialTidyStatus (some "x") 7).timeFinished = some 7
        ∧ (tidyStatusStop initialTidyStatus (some "x") 7).state
            = (if (some "x" : Option String) = none then tidyState.finished
                else tidyState.error))
      ∧ ((pathTidyStatusRead (tidyStatusStop initialTidyStatus none 7)).state = "Finished"
        ∧ (pathTidyStatusRead (tidyStatusStop initialTidyStatus none 7)).message = none
        ∧ (pathTidyStatusRead (tidyStatusStop initialTidyStatus none 7)).error = none
        ∧ (pathTidyStatusRead (tidyStatusStop initialTidyStatus none 7)).time_finished
            = some 7)
      ∧ ((pathTidyStatusRead (tidyStatusStop initialTidyStatus (some "x") 7)).state
            = "Error"
        ∧ (pathTidyStatusRead (tidyStatusStop initialTidyStatus (some "x") 7)).message
            = initialTidyStatus.message
        ∧ (pathTidyStatusRead (tidyStatusStop initialTidyStatus (some "x") 7)).error
            = some "x"
        ∧ (pathTidyStatusRead (tidyStatusStop initialTidyStatus (some "x") 7)).time_finished
            = some 7) :=
  ⟨claim_C9_status_snapshot.1 initialTidyStatus rfl,
    claim_C9_status_snapshot.2.1 initialTidyStatus (some "x") 7,
    claim_C9_status_snapshot.2.2.1 initialTidyStatus 7,
    claim_C9_status_snapshot.2.2.2 initialTidyStatus "x" 7⟩

/-- A list of actions without any rebuild action contains no `rebuildCRL f`. -/
lemma no_rebuild_of_any_false (l : List RevAction) (h : l.any isRebuildAction = false) :
    ∀ f, RevAction.rebuildCRL f ∉ l := by
  intro f hf
  have h2 := List.any_eq_false.mp h _ hf
  simp [isRebuildAction] at h2

/-- `List.any isDeleteCertAction` detects membership of some `deleteCert s`. -/
lemma any_deleteCert_iff (l : List RevAction) :
    l.any isDeleteCertAction = true ↔ ∃ s, RevAction.deleteCert s ∈ l := by
  rw [List.any_eq_true]
  constructor
  · rintro ⟨a, ha, hpa⟩
    cases a with
    | deleteCert s => exact ⟨s, ha⟩
    | deleteRevoked s => simp [isDeleteCertAction] at hpa
    | putRevoked s rv => simp [isDeleteCertAction] at hpa
    | rebuildCRL f => simp [isDeleteCertAction] at hpa
  · rintro ⟨s, hs⟩
    exact ⟨_, hs, by simp [isDeleteCertAction]⟩

/-- A one-entry revocation store whose entry is nil, `AutoRebuild` disabled. -/
def c3RevEnv : revStoreEnv :=
  { issuerMapResult := .ok []
    listResult := .ok ["01"]
    get := fun _ => .missing
    decodeRevInfo := fun _ => .error "no decode"
    parseCert := fun _ => .error "no parse"
    issuerMatches := fun _ _ => false
    deleteRevoked := fun _ => none
    deleteCert := fun _ => none
    putRevoked := fun _ _ => none
    revocationConfigResult := .ok false
    rebuildResult := none
    now := 0 }

/-- Tidy config enabling only the revocation pass, safety buffer 72h. -/
def c3Config : tidyConfig :=
  { certStore := false
    revokedCerts := true
    issuerAssocs := false
    safetyBuffer := 259200 * timeSecond }

/-- C3 is false as stated: this revocation-tidy run deletes one revoked entry
(the nil entry, counted in `revokedCertDeletedCount`), automatic CRL
rebuilding is disabled, yet the CRL Rebuild Trigger is never invoked — the
nil/empty-entry deletion branch does not set `rebuildCRL`. -/
theorem claim_C3_counterexample_nil_entry_no_rebuild :
    (doTidyRevocationStore c3RevEnv c3Config (tidyStatusStart c3Config 0)).err = none
      ∧ (doTidyRevocationStore c3RevEnv c3Config
          (tidyStatusStart c3Config 0)).status.revokedCertDeletedCount = 1
      ∧ c3RevEnv.revocationConfigResult = Except.ok false
      ∧ (doTidyRevocationStore c3RevEnv c3Config (tidyStatusStart c3Config 0)).actions
        = [RevAction.deleteRevoked "01"] :=
  ⟨rfl, rfl, rfl, rfl⟩

/-- C3 (amended): on a completed revocation-tidy run, if at least one entry
was deleted by the expiry rule (equivalently, some `certs/` deletion was
emitted — nil/empty-entry deletions do not set the rebuild flag) then with
automatic rebuilding disabled the CRL Rebuild Trigger is invoked exactly once,
non-forced, as the last effect of the run, and with automatic rebuilding
enabled it is not invoked; without an expiry deletion it is never invoked. -/
theorem claim_C3_amended_rebuild_trigger (env : revStoreEnv) (config : tidyConfig)
    (st : tidyStatus)
    (hok : (doTidyRevocationStore env config st).err = none) :
    ((∃ s, RevAction.deleteCert s ∈ (doTidyRevocationStore env config st).actions) →
        (env.revocationConfigResult = Except.ok false →
          (doTidyRevocationStore env config st).actions.count (RevAction.rebuildCRL false) = 1
          ∧ (doTidyRevocationStore env config st).actions.getLast?
              = some (RevAction.rebuildCRL false)
          ∧ RevAction.rebuildCRL true ∉ (doTidyRevocationStore env config st).actions)
        ∧ (env.revocationConfigResult = Except.ok true →
          ∀ f, RevAction.rebuildCRL f ∉ (doTidyRevocationStore env config st).actions))
    ∧ ((¬∃ s, RevAction.deleteCert s ∈ (doTidyRevocationStore env config st).actions) →
        ∀ f, RevAction.rebuildCRL f ∉ (doTidyRevocationStore env config st).actions) := by
  cases himap : env.issuerMapResult with
  | error e => simp [doTidyRevocationStore, himap] at hok
  | ok imap =>
    cases hlist : env.listResult with
    | error e => simp [doTidyRevocationStore, himap, hlist] at hok
    | ok serials =>
      obtain ⟨tail, hacts, hrb, hnorb⟩ :=
        revLoop_actions env config imap serials.length serials 0 st [] false
      rw [List.nil_append] at hacts
      rw [Bool.false_or] at hrb
      simp only [doTidyRevocationStore, himap, hlist] at hok ⊢
      cases hserr :
          (doTidyRevocationStoreLoop env config imap serials.length serials 0 st []
            false).err with
      | some e => simp [hserr] at hok
      | none =>
        simp only [hserr] at hok ⊢
        by_cases hflag :
            (doTidyRevocationStoreLoop env config imap serials.length serials 0 st []
              false).rebuildCRL = true
        · simp only [hflag, if_true] at hok ⊢
          cases hcfg : env.revocationConfigResult with
          | error e => simp [hcfg] at hok
          | ok auto =>
            cases auto with
            | true =>
                simp only [hcfg, Bool.not_true, Bool.false_eq_true, if_false] at hok ⊢
                refine ⟨fun _ => ⟨fun hfalse => ?_, fun _ => ?_⟩, fun _ => ?_⟩
                · exact absurd hfalse (by simp)
                · rw [hacts]; exact no_rebuild_of_any_false tail hnorb
                · rw [hacts]; exact no_rebuild_of_any_false tail hnorb
            | false =>
                simp only [hcfg, Bool.not_false, if_true] at hok ⊢
                cases hres : env.rebuildResult with
                | some e => simp [hres] at hok
                | none =>
                    simp only [hres] at hok ⊢
                    have hnm := no_rebuild_of_any_false tail hnorb
                    refine ⟨fun _ => ⟨fun _ => ⟨?_, ?_, ?_⟩, fun htrue => ?_⟩, fun hno => ?_⟩
                    · rw [hacts]
                      rw [List.count_append]
                      rw [List.count_eq_zero.mpr (hnm false)]
                      simp
                    · rw [hacts]
                      simp
                    · rw [hacts]
                      simp only [List.mem_append]
                      rintro (h | h)
                      · exact hnm true h
                      · simp at h
                    · exact absurd htrue (by simp [hcfg])
                    · exfalso
                      apply hno
                      rw [hflag] at hrb
                      obtain ⟨s, hs⟩ := (any_deleteCert_iff tail).mp hrb.symm
                      exact ⟨s, by rw [hacts]; exact List.mem_append_left _ hs⟩
        · have hflag2 :
              (doTidyRevocationStoreLoop env config imap serials.length serials 0 st []
                false).rebuildCRL = false := by
            revert hflag; cases (doTidyRevocationStoreLoop env config imap serials.length
              serials 0 st [] false).rebuildCRL <;> simp
          simp only [hflag2, Bool.false_eq_true, if_false] at hok ⊢
          have hnm := no_rebuild_of_any_false tail hnorb
          refine ⟨fun hex => ⟨fun _ => ?_, fun _ => ?_⟩, fun _ => ?_⟩
          · exfalso
            obtain ⟨s, hs⟩ := hex
            rw [hacts] at hs
            have : tail.any isDeleteCertAction = true := (any_deleteCert_iff tail).mpr ⟨s, hs⟩
            rw [hflag2] at hrb
            rw [this] at hrb
            exact absurd hrb (by simp)
          · rw [hacts]; exact hnm
          · rw [hacts]; exact hnm

/-- A one-entry revocation store whose entry is expired, `AutoRebuild`
disabled, so the run performs an expiry deletion and a CRL rebuild. -/
def c3ExpEnv : revStoreEnv :=
  { issuerMapResult := .ok []
    listResult := .ok ["01"]
    get := fun _ => .found [7]
    decodeRevInfo := fun _ => .ok { certificateBytes := [7], certificateIssuer := "" }
    parseCert := fun _ => .ok { notAfter := 0 }
    issuerMatches := fun _ _ => false
    deleteRevoked := fun _ => none
    deleteCert := fun _ => none
    putRevoked := fun _ _ => none
    revocationConfigResult := .ok false
    rebuildResult := none
    now := 259201 * timeSecond }

theorem claim_C3_amended_rebuild_trigger_witness :
    (doTidyRevocationStore c3ExpEnv c3Config (tidyStatusStart c3Config 0)).actions.count
        (RevAction.rebuildCRL false) = 1 :=
  ((((claim_C3_amended_rebuild_trigger c3ExpEnv c3Config (tidyStatusStart c3Config 0)
      rfl).1 ⟨"01", by decide⟩).1) rfl).1

/-- C5: within one iteration of the revocation scan, a persisted rewrite and a
`revoked/` deletion are mutually exclusive (a rewrite is only emitted as the
iteration's sole effect); and when both repair and expiry deletion apply to the
same entry, the repair is still evaluated first (its counter bump happens) but
the deletion wins — the entry is deleted and the pending dirty rewrite is
discarded, never persisted. -/
theorem claim_C5_deletion_discards_rewrite :
    (∀ (env : revStoreEnv) (config : tidyConfig) (imap : List (String × X509Cert))
        (serial : String) (st : tidyStatus) (s : String) (rv : revocationInfo),
      RevAction.putRevoked s rv
          ∈ (doTidyRevocationStoreStep env config imap serial st).actions →
      RevAction.deleteRevoked serial
          ∉ (doTidyRevocationStoreStep env config imap serial st).actions)
    ∧ (∀ (env : revStoreEnv) (config : tidyConfig) (imap : List (String × X509Cert))
        (serial : String) (st : tidyStatus) (v : Bytes) (rev : revocationInfo)
        (cert : X509Cert),
      env.get serial = getOutcome.found v → v.length ≠ 0 →
      env.decodeRevInfo v = Except.ok rev →
      env.parseCert rev.certificateBytes = Except.ok cert →
      config.issuerAssocs = true →
      isRevInfoIssuerValid rev imap = false →
      config.revokedCerts = true →
      env.now > cert.notAfter + config.safetyBuffer →
      env.deleteRevoked serial = none →
      env.deleteCert serial = none →
      (doTidyRevocationStoreStep env config imap serial st).status.missingIssuerCertCount
          = st.missingIssuerCertCount + 1
        ∧ RevAction.deleteRevoked serial
            ∈ (doTidyRevocationStoreStep env config imap serial st).actions
        ∧ ∀ rv, RevAction.putRevoked serial rv
            ∉ (doTidyRevocationStoreStep env config imap serial st).actions) := by
  constructor
  · intro env config imap serial st s rv h
    rcases (revStep_enum env config imap serial st).1 with h1 | h1 | h1 | ⟨rv2, h1⟩ <;>
      simp [h1] at h ⊢
  · intro env config imap serial st v rev cert hget hv hdec hparse hia hvalid hrc hexp
      hdelR hdelC
    have hia2 : (config.issuerAssocs && !isRevInfoIssuerValid rev imap) = true := by
      simp [hia, hvalid]
    have hexp2 :
        (config.revokedCerts
          && decide (env.now > cert.notAfter + config.safetyBuffer)) = true := by
      simp [hrc, hexp]
    refine ⟨?_, ?_, ?_⟩ <;>
      simp [doTidyRevocationStoreStep, hget, hv, hdec, hparse, hia2, hexp2, hdelR, hdelC,
        tidyStatusIncRevokedCertCount, tidyStatusIncMissingIssuerCertCount]

/-- A revocation-store environment where the single entry both lacks a valid
issuer reference and is past expiry plus the safety buffer. -/
def c5Env : revStoreEnv :=
  { issuerMapResult := .ok [("issuerA", { notAfter := 100 })]
    listResult := .ok ["01"]
    get := fun _ => .found [7]
    decodeRevInfo := fun _ => .ok { certificateBytes := [7], certificateIssuer := "gone" }
    parseCert := fun _ => .ok { notAfter := 0 }
    issuerMatches := fun _ _ => true
    deleteRevoked := fun _ => none
    deleteCert := fun _ => none
    putRevoked := fun _ _ => none
    revocationConfigResult := .ok false
    rebuildResult := none
    now := 259201 * timeSecond }

/-- Tidy config enabling the revocation pass and issuer-association repair. -/
def c5Config : tidyConfig :=
  { certStore := false
    revokedCerts := true
    issuerAssocs := true
    safetyBuffer := 259200 * timeSecond }

/-- The issuer map of `c5Env`. -/
def c5IMap : List (String × X509Cert) := [("issuerA", { notAfter := 100 })]

theorem claim_C5_deletion_discards_rewrite_witness :
    (doTidyRevocationStoreStep c5Env c5Config c5IMap "01"
        initialTidyStatus).status.missingIssuerCertCount
        = initialTidyStatus.missingIssuerCertCount + 1
      ∧ RevAction.deleteRevoked "01"
          ∈ (doTidyRevocationStoreStep c5Env c5Config c5IMap "01" initialTidyStatus).actions
      ∧ RevAction.putRevoked "01" { certificateBytes := [7], certificateIssuer := "issuerA" }
          ∉ (doTidyRevocationStoreStep c5Env c5Config c5IMap "01" initialTidyStatus).actions :=
  ⟨(claim_C5_deletion_discards_rewrite.2 c5Env c5Config c5IMap "01" initialTidyStatus
      [7] { certificateBytes := [7], certificateIssuer := "gone" } { notAfter := 0 }
      rfl (by decide) rfl rfl rfl (by decide) rfl (by decide) rfl rfl).1,
    (claim_C5_deletion_discards_rewrite.2 c5Env c5Config c5IMap "01" initialTidyStatus
      [7] { certificateBytes := [7], certificateIssuer := "gone" } { notAfter := 0 }
      rfl (by decide) rfl rfl rfl (by decide) rfl (by decide) rfl rfl).2.1,
    (claim_C5_deletion_discards_rewrite.2 c5Env c5Config c5IMap "01" initialTidyStatus
      [7] { certificateBytes := [7], certificateIssuer := "gone" } { notAfter := 0 }
      rfl (by decide) rfl rfl rfl (by decide) rfl (by decide) rfl rfl).2.2
      { certificateBytes := [7], certificateIssuer := "issuerA" }⟩

/-- C6: on a completed revocation-tidy run the missing-issuer counter grows by
exactly one per listed entry qualifying for issuer repair; a qualifying entry
(invalid issuer reference, `tidyIssuerAssociations` on) that survives expiry
deletion is written back with its reference cleared and then re-associated
against every known issuer; an entry with a valid issuer reference leaves the
counter untouched and is never written back. -/
theorem claim_C6_issuer_association_repair :
    (∀ (env : revStoreEnv) (config : tidyConfig) (st : tidyStatus)
        (imap : List (String × X509Cert)) (serials : List String),
      env.issuerMapResult = Except.ok imap →
      env.listResult = Except.ok serials →
      (doTidyRevocationStore env config st).err = none →
      (doTidyRevocationStore env config st).status.missingIssuerCertCount
        = st.missingIssuerCertCount
          + serials.countP (missingIssuerQualifies env config imap))
    ∧ (∀ (env : revStoreEnv) (config : tidyConfig) (imap : List (String × X509Cert))
        (serial : String) (st : tidyStatus) (v : Bytes) (rev : revocationInfo)
        (cert : X509Cert),
      env.get serial = getOutcome.found v → v.length ≠ 0 →
      env.decodeRevInfo v = Except.ok rev →
      env.parseCert rev.certificateBytes = Except.ok cert →
      config.issuerAssocs = true →
      isRevInfoIssuerValid rev imap = false →
      (config.revokedCerts && decide (env.now > cert.notAfter + config.safetyBuffer))
          = false →
      env.putRevoked serial
          ((associateRevokedCertWithIsssuer env.issuerMatches
              { rev with certificateIssuer := "" } cert imap).1) = none →
      (doTidyRevocationStoreStep env config imap serial st).status.missingIssuerCertCount
          = st.missingIssuerCertCount + 1
        ∧ (doTidyRevocationStoreStep env config imap serial st).actions
          = [RevAction.putRevoked serial
              ((associateRevokedCertWithIsssuer env.issuerMatches
                  { rev with certificateIssuer := "" } cert imap).1)])
    ∧ (∀ (env : revStoreEnv) (config : tidyConfig) (imap : List (String × X509Cert))
        (serial : String) (st : tidyStatus) (v : Bytes) (rev : revocationInfo)
        (cert : X509Cert),
      env.get serial = getOutcome.found v → v.length ≠ 0 →
      env.decodeRevInfo v = Except.ok rev →
      env.parseCert rev.certificateBytes = Except.ok cert →
      isRevInfoIssuerValid rev imap = true →
      (doTidyRevocationStoreStep env config imap serial st).status.missingIssuerCertCount
          = st.missingIssuerCertCount
        ∧ ∀ rv, RevAction.putRevoked serial rv
            ∉ (doTidyRevocationStoreStep env config imap serial st).actions) := by
  refine ⟨?_, ?_, ?_⟩
  · intro env config st imap serials himap hlist hok
    simp only [doTidyRevocationStore, himap, hlist] at hok ⊢
    cases hserr :
        (doTidyRevocationStoreLoop env config imap serials.length serials 0 st []
          false).err with
    | some e => simp [hserr] at hok
    | none =>
      have hcount :=
        revLoop_missing_count env config imap serials.length serials 0 st [] false hserr
      simp only [hserr] at hok ⊢
      by_cases hflag :
          (doTidyRevocationStoreLoop env config imap serials.length serials 0 st []
            false).rebuildCRL = true
      · simp only [hflag, if_true] at hok ⊢
        cases hcfg : env.revocationConfigResult with
        | error e => simp [hcfg] at hok
        | ok auto =>
          cases auto with
          | true => simpa [hcfg] using hcount
          | false =>
              cases hres : env.rebuildResult with
              | some e => simp [hcfg, hres] at hok
              | none => simpa [hcfg, hres] using hcount
      · have hflag2 :
            (doTidyRevocationStoreLoop env config imap serials.length serials 0 st []
              false).rebuildCRL = false := by
          revert hflag; cases (doTidyRevocationStoreLoop env config imap serials.length
            serials 0 st [] false).rebuildCRL <;> simp
        simpa [hflag2] using hcount
  · intro env config imap serial st v rev cert hget hv hdec hparse hia hvalid hexp hput
    have hia2 : (config.issuerAssocs && !isRevInfoIssuerValid rev imap) = true := by
      simp [hia, hvalid]
    refine ⟨?_, ?_⟩ <;>
      simp [doTidyRevocationStoreStep, hget, hv, hdec, hparse, hia2, hexp, hput,
        tidyStatusIncMissingIssuerCertCount]
  · intro env config imap serial st v rev cert hget hv hdec hparse hvalid
    have hia2 : (config.issuerAssocs && !isRevInfoIssuerValid rev imap) = false := by
      simp [hvalid]
    by_cases hexp :
        (config.revokedCerts && decide (env.now > cert.notAfter + config.safetyBuffer))
          = true
    · cases hdelR : env.deleteRevoked serial with
      | some e =>
          refine ⟨?_, ?_⟩ <;>
            simp [doTidyRevocationStoreStep, hget, hv, hdec, hparse, hia2, hexp, hdelR]
      | none =>
          cases hdelC : env.deleteCert serial with
          | some e =>
              refine ⟨?_, ?_⟩ <;>
                simp [doTidyRevocationStoreStep, hget, hv, hdec, hparse, hia2, hexp,
                  hdelR, hdelC]
          | none =>
              refine ⟨?_, ?_⟩ <;>
                simp [doTidyRevocationStoreStep, hget, hv, hdec, hparse, hia2, hexp,
                  hdelR, hdelC, tidyStatusIncRevokedCertCount]
    · rw [Bool.not_eq_true] at hexp
      refine ⟨?_, ?_⟩ <;>
        simp [doTidyRevocationStoreStep, hget, hv, hdec, hparse, hia2, hexp]

/-- A revocation-store environment whose single entry has an unknown issuer
reference but matches a known issuer, and is not past expiry. -/
def c6Env : revStoreEnv :=
  { issuerMapResult := .ok [("issuerA", { notAfter := 100 })]
    listResult := .ok ["01"]
    get := fun _ => .found [7]
    decodeRevInfo := fun _ => .ok { certificateBytes := [7], certificateIssuer := "gone" }
    parseCert := fun _ => .ok { notAfter := 0 }
    issuerMatches := fun _ _ => true
    deleteRevoked := fun _ => none
    deleteCert := fun _ => none
    putRevoked := fun _ _ => none
    revocationConfigResult := .ok false
    rebuildResult := none
    now := 0 }

/-- `c6Env` with a valid issuer reference on the entry. -/
def c6ValidEnv : revStoreEnv :=
  { issuerMapResult := .ok [("issuerA", { notAfter := 100 })]
    listResult := .ok ["01"]
    get := fun _ => .found [7]
    decodeRevInfo := fun _ =>
      .ok { certificateBytes := [7], certificateIssuer := "issuerA" }
    parseCert := fun _ => .ok { notAfter := 0 }
    issuerMatches := fun _ _ => true
    deleteRevoked := fun _ => none
    deleteCert := fun _ => none
    putRevoked := fun _ _ => none
    revocationConfigResult := .ok false
    rebuildResult := none
    now := 0 }

/-- Tidy config enabling only issuer-association repair. -/
def c6Config : tidyConfig :=
  { certStore := false
    revokedCerts := false
    issuerAssocs := true
    safetyBuffer := 259200 * timeSecond }

/-- The issuer map of `c6Env`/`c6ValidEnv`. -/
def c6IMap : List (String × X509Cert) := [("issuerA", { notAfter := 100 })]

theorem claim_C6_issuer_association_repair_witness :
    (doTidyRevocationStore c6Env c6Config initialTidyStatus).status.missingIssuerCertCount
        = initialTidyStatus.missingIssuerCertCount
          + List.countP (missingIssuerQualifies c6Env c6Config c6IMap) ["01"]
      ∧ (doTidyRevocationStoreStep c6Env c6Config c6IMap "01"
            initialTidyStatus).status.missingIssuerCertCount
          = initialTidyStatus.missingIssuerCertCount + 1
      ∧ (doTidyRevocationStoreStep c6Env c6Config c6IMap "01" initialTidyStatus).actions
          = [RevAction.putRevoked "01"
              ((associateRevokedCertWithIsssuer c6Env.issuerMatches
                  { certificateBytes := [7], certificateIssuer := "" }
                  { notAfter := 0 } c6IMap).1)]
      ∧ (doTidyRevocationStoreStep c6ValidEnv c6Config c6IMap "01"
            initialTidyStatus).status.missingIssuerCertCount
          = initialTidyStatus.missingIssuerCertCount
      ∧ RevAction.putRevoked "01" { certificateBytes := [7], certificateIssuer := "issuerA" }
          ∉ (doTidyRevocationStoreStep c6ValidEnv c6Config c6IMap "01"
              initialTidyStatus).actions :=
  ⟨claim_C6_issuer_association_repair.1 c6Env c6Config initialTidyStatus c6IMap ["01"]
      rfl rfl rfl,
    (claim_C6_issuer_association_repair.2.1 c6Env c6Config c6IMap "01" initialTidyStatus
      [7] { certificateBytes := [7], certificateIssuer := "gone" } { notAfter := 0 }
      rfl (by decide) rfl rfl rfl (by decide) (by decide) rfl).1,
    (claim_C6_issuer_association_repair.2.1 c6Env c6Config c6IMap "01" initialTidyStatus
      [7] { certificateBytes := [7], certificateIssuer := "gone" } { notAfter := 0 }
      rfl (by decide) rfl rfl rfl (by decide) (by decide) rfl).2,
    (claim_C6_issuer_association_repair.2.2 c6ValidEnv c6Config c6IMap "01"
      initialTidyStatus [7] { certificateBytes := [7], certificateIssuer := "issuerA" }
      { notAfter := 0 } rfl (by decide) rfl rfl (by decide)).1,
    (claim_C6_issuer_association_repair.2.2 c6ValidEnv c6Config c6IMap "01"
      initialTidyStatus [7] { certificateBytes := [7], certificateIssuer := "issuerA" }
      { notAfter := 0 } rfl (by decide) rfl rfl (by decide)).2
      { certificateBytes := [7], certificateIssuer := "issuerA" }⟩

/-- C10: nil or empty-valued `revoked/` entries are deleted and counted toward
`revokedCertDeletedCount` by the scan regardless of every config flag; and the
revocation scan runs (its status and effects become the run's) when
`tidyRevokedCerts` is false but `tidyIssuerAssociations` is true, so
empty-entry cleanup does not depend on `tidyRevokedCerts`. -/
theorem claim_C10_empty_revoked_entry_cleanup :
    (∀ (env : revStoreEnv) (config : tidyConfig) (imap : List (String × X509Cert))
        (serial : String) (st : tidyStatus),
      (env.get serial = getOutcome.missing ∨ env.get serial = getOutcome.found []) →
      env.deleteRevoked serial = none →
      (doTidyRevocationStoreStep env config imap serial st).actions
          = [RevAction.deleteRevoked serial]
        ∧ (doTidyRevocationStoreStep env config imap serial st).status.revokedCertDeletedCount
          = st.revokedCertDeletedCount + 1
        ∧ (doTidyRevocationStoreStep env config imap serial st).err = none)
    ∧ (∀ (envC : certStoreEnv) (envR : revStoreEnv) (config : tidyConfig) (st : tidyStatus),
      config.certStore = false → config.revokedCerts = false → config.issuerAssocs = true →
      doTidy envC envR config st
        = { status := (doTidyRevocationStore envR config st).status
            certDeleted := []
            revActions := (doTidyRevocationStore envR config st).actions
            err := none }) := by
  constructor
  · intro env config imap serial st hget hdel
    rcases hget with hget | hget <;>
      refine ⟨?_, ?_, ?_⟩ <;>
        simp [doTidyRevocationStoreStep, hget, hdel, tidyStatusIncRevokedCertCount]
  · intro envC envR config st hcs hrc hia
    cases herr : (doTidyRevocationStore envR config st).err with
    | some e => simp [doTidy, hcs, hrc, hia, herr]
    | none => simp [doTidy, hcs, hrc, hia, herr]

/-- A revocation store with one nil entry. -/
def c10Env : revStoreEnv :=
  { issuerMapResult := .ok []
    listResult := .ok ["01"]
    get := fun _ => .missing
    decodeRevInfo := fun _ => .error "no decode"
    parseCert := fun _ => .error "no parse"
    issuerMatches := fun _ _ => false
    deleteRevoked := fun _ => none
    deleteCert := fun _ => none
    putRevoked := fun _ _ => none
    revocationConfigResult := .ok false
    rebuildResult := none
    now := 0 }

/-- Tidy config with only `tidy_revoked_cert_issuer_associations` set. -/
def c10Config : tidyConfig :=
  { certStore := false
    revokedCerts := false
    issuerAssocs := true
    safetyBuffer := 259200 * timeSecond }

/-- A certificate-store environment (unused by the revocation-only run). -/
def c10CertEnv : certStoreEnv :=
  { listResult := .ok []
    get := fun _ => .missing
    parseCert := fun _ => .error "no parse"
    deleteCert := fun _ => none
    now := 0 }

theorem claim_C10_empty_revoked_entry_cleanup_witness :
    ((doTidyRevocationStoreStep c10Env c10Config [] "01" initialTidyStatus).actions
          = [RevAction.deleteRevoked "01"]
        ∧ (doTidyRevocationStoreStep c10Env c10Config [] "01"
            initialTidyStatus).status.revokedCertDeletedCount
          = initialTidyStatus.revokedCertDeletedCount + 1
        ∧ (doTidyRevocationStoreStep c10Env c10Config [] "01" initialTidyStatus).err = none)
      ∧ doTidy c10CertEnv c10Env c10Config initialTidyStatus
        = { status := (doTidyRevocationStore c10Env c10Config initialTidyStatus).status
            certDeleted := []
            revActions := (doTidyRevocationStore c10Env c10Config initialTidyStatus).actions
            err := none } :=
  ⟨claim_C10_empty_revoked_entry_cleanup.1 c10Env c10Config [] "01" initialTidyStatus
      (Or.inl rfl) rfl,
    claim_C10_empty_revoked_entry_cleanup.2 c10CertEnv c10Env c10Config initialTidyStatus
      rfl rfl rfl⟩
